import Mathlib

/-!
Verification of the concurrent plate-checking engine of CA-DMV-Plate-Finder.

The development shallowly embeds the TypeScript sources:

* `src/plateFinder.ts` — the `PlateFinder` class: `getPlateStatus` (one probe
  against the remote endpoint, with its try/catch), the `availablePlates`
  accumulator and the `platesChecked` counter, and the `run` worker loop.
* `src/index.ts` (CLI variant with `MINIMUM_LENGTH`/`MAXIMUM_LENGTH`) — the
  `getNextPlate` candidate generator shared by all workers, and the final
  sorted summary written by `main`.
* `src/server/api/routers/plateChecker.ts` — both router variants of
  `checkPlates`: the sequential one (per-plate `emit.next`, `totalChecked`
  read from `plateFinder.platesChecked`) and the parallel one
  (`PARALLEL_WORKERS` init loop, `tracked(String(eventId++))`, local
  `totalChecked++`).

Remote I/O is modelled by a `ProbeOutcome` describing what one HTTP exchange
produced (transport failure, status code, body parse result); a run's remote
behaviour is an environment `String → ProbeOutcome` giving the outcome for
each candidate, matching the spec's idempotent-classification assumption.
Cooperative scheduling of the workers that share one generator is modelled by
an explicit schedule: a list of worker indices, each entry being one atomic
"pull next candidate and process it" step (JS async generators serialize
concurrent `next()` calls, so each pull hands out a distinct element).
-/

namespace DMV

/-! ## JS string primitives

`String.toUpperCase`, `String.prototype.trim` and the default `Array.sort`
comparator of the source are modelled by executable character-list functions
(the library versions do not reduce in the kernel). -/

/-- One character of `toUpperCase` (ASCII range, which is all the source uses). -/
def upChar (c : Char) : Char :=
  if c.isLower then Char.ofNat (c.toNat - 32) else c

/-- JS `s.toUpperCase()`. -/
def toUpperJS (s : String) : String := String.mk (s.data.map upChar)

/-- Whitespace for `trim`. -/
def isWS (c : Char) : Bool := c = ' ' || c = '\t' || c = '\n' || c = '\r'

/-- JS `s.trim()`. -/
def trimJS (s : String) : String :=
  String.mk ((s.data.dropWhile isWS).reverse.dropWhile isWS).reverse

/-- UTF-16 lexicographic comparison used by JS default `Array.sort`
(all strings involved are ASCII, where code units and code points agree). -/
def lexLe : List Char → List Char → Bool
  | [], _ => true
  | _ :: _, [] => false
  | a :: as, b :: bs =>
    if a.toNat < b.toNat then true
    else if b.toNat < a.toNat then false
    else lexLe as bs

/-- String comparison for the default sort. -/
def strLe (a b : String) : Bool := lexLe a.data b.data

/-- The sort order as a decidable relation. -/
def strLeProp (a b : String) : Prop := strLe a b = true

instance : DecidableRel strLeProp := fun a b => inferInstanceAs (Decidable (strLe a b = true))

/-- JS `array.sort()` on strings: a stable sort by `strLe` (modelled by
insertion sort, which is stable and executable). -/
def sortJS (l : List String) : List String := l.insertionSort strLeProp

/-! ## Probe model (`PlateFinder.getPlateStatus`) -/

/-- Result statuses used across the code base (`PlateResult.status` in the
router and UI: AVAILABLE, UNAVAILABLE, ERROR or the provisional CHECKING). -/
inductive Status where
  | AVAILABLE
  | UNAVAILABLE
  | ERROR
  | CHECKING
deriving DecidableEq, Repr

/-- What `JSON.parse(responseText)` together with the `.code` field access
yields: either the parse throws, or it produces an object whose `code` field
is absent (`none`) or some string. -/
inductive BodyContent where
  | unparsable
  | json (code : Option String)
deriving DecidableEq, Repr

/-- One HTTP exchange of `getPlateStatus`, as observed by the code: either the
`request`/`body.text()` call throws (transport failure), or it returns a
status code and a body. -/
inductive ProbeOutcome where
  | transportError (msg : String)
  | response (statusCode : Nat) (body : BodyContent)
deriving DecidableEq, Repr

/-- The mutable per-`PlateFinder` fields touched by probing:
`availablePlates` and `platesChecked`. -/
structure FinderState where
  availablePlates : List String
  platesChecked : Nat
deriving DecidableEq, Repr

/-- Constructor state: `availablePlates = []`, `platesChecked = 0`. -/
def initialFinderState : FinderState := ⟨[], 0⟩

/-- The status-string computation of the `try` block of `getPlateStatus`:
a thrown transport error propagates; `statusCode !== 200` throws
`Unexpected status code`; an unparsable body makes `JSON.parse` throw;
otherwise the status is `responseData.code || "UNKNOWN"` (the `||` also
replaces an empty string, which is falsy in JS). -/
def plateStatusBody (o : ProbeOutcome) : Except String String :=
  match o with
  | .transportError msg => .error msg
  | .response sc body =>
    if sc ≠ 200 then .error ("Unexpected status code: " ++ toString sc)
    else
      match body with
      | .unparsable => .error "Unexpected token in JSON"
      | .json code =>
        .ok (match code with
             | some c => if c = "" then "UNKNOWN" else c
             | none => "UNKNOWN")

/-- The whole `try` block of `getPlateStatus`: on status `"AVAILABLE"` the
uppercased plate is pushed onto `this.availablePlates`; the status string is
returned. `platesChecked` is not touched here (its increment lives in
`run`/`checkPlatesWithResults`). -/
def getPlateStatusBody (plate : String) (o : ProbeOutcome) (st : FinderState) :
    Except String (String × FinderState) :=
  (plateStatusBody o).map fun s =>
    (s,
     if s = "AVAILABLE"
     then { st with availablePlates := st.availablePlates ++ [toUpperJS plate] }
     else st)

/-- `getPlateStatus` with its `catch`: any failure of the body is converted
into the returned string `"ERROR"`, leaving the state untouched (the push
happens only after a successful parse, so no partial effect survives a
throw). -/
def getPlateStatus (plate : String) (o : ProbeOutcome) (st : FinderState) :
    String × FinderState :=
  match getPlateStatusBody plate o st with
  | .ok r => r
  | .error _ => ("ERROR", st)

/-- The status string `getPlateStatus` returns, which depends only on the
probe outcome (see `getPlateStatus_fst`). -/
def checkedStatus (o : ProbeOutcome) : String :=
  match plateStatusBody o with
  | .ok s => s
  | .error _ => "ERROR"

/-! ## Router model (`plateChecker.ts`) -/

/-- The routers' status mapping over the string returned by
`getPlateStatus`: `"AVAILABLE"` and `"ERROR"` map to themselves, everything
else to UNAVAILABLE. -/
def routerVerdict (s : String) : Status :=
  if s = "AVAILABLE" then .AVAILABLE
  else if s = "ERROR" then .ERROR
  else .UNAVAILABLE

/-- The verdict one probe outcome produces at the router level. -/
def routerStatusOf (o : ProbeOutcome) : Status := routerVerdict (checkedStatus o)

/-- One result record built by the parallel router's mapper for one plate
(timestamps are real time and are not modelled). -/
structure RouterResult where
  plate : String
  status : Status
  error : Option String
deriving DecidableEq, Repr

/-- The parallel router's per-plate mapper: uppercased plate, mapped status,
and the fixed error text on ERROR. -/
def routerResult (env : String → ProbeOutcome) (plate : String) : RouterResult :=
  let s := checkedStatus (env plate)
  { plate := toUpperJS plate
    status := routerVerdict s
    error := if s = "ERROR" then some "Failed to check plate" else none }

/-- One event of the parallel router's subscription stream: the `tracked` id,
the result fields, and the stream-local `totalChecked` (absent on the SYSTEM
error event). -/
structure StreamEvent where
  eventId : Nat
  plate : String
  status : Status
  totalChecked : Option Nat
  error : Option String
deriving DecidableEq, Repr

/-- The parallel router's emission loop: `totalChecked++` then
`yield tracked(String(eventId++), { ...result, totalChecked })`. -/
def emitResults (eventId totalChecked : Nat) : List RouterResult → List StreamEvent
  | [] => []
  | r :: rs =>
    ⟨eventId, r.plate, r.status, some (totalChecked + 1), r.error⟩ ::
      emitResults (eventId + 1) (totalChecked + 1) rs

/-- The parallel router's init loop: `PARALLEL_WORKERS` sequential
`finder.initialize()` calls, each of which either succeeds or throws a
message; the first throw escapes the loop. Returns the number of finders on
success. -/
def initFinders : List (Except String Unit) → Except String Nat
  | [] => .ok 0
  | .ok _ :: rest => (initFinders rest).map (· + 1)
  | .error e :: _ => .error e

/-- Whether every session acquisition succeeded. -/
def allOk (outcomes : List (Except String Unit)) : Bool :=
  outcomes.all fun o => match o with | .ok _ => true | .error _ => false

/-- The parallel router's `checkPlates` subscription: if any `initialize()`
throws, the `catch` yields a single SYSTEM ERROR event (with `eventId` 0 and
no `totalChecked`); otherwise the (first 1000) plates are checked and one
result event is yielded per plate, in input order (`pMapIterable` preserves
input order). The worker assignment `index % finders.length` only selects
which session is used and does not affect any modelled field. -/
def checkPlatesStream (outcomes : List (Except String Unit))
    (env : String → ProbeOutcome) (plates : List String) : List StreamEvent :=
  match initFinders outcomes with
  | .error e => [⟨0, "SYSTEM", .ERROR, none, some e⟩]
  | .ok _ => emitResults 0 0 ((plates.take 1000).map (routerResult env))

/-- One event of the sequential router variant (its `emit.next` payloads have
no tracked id). -/
structure SeqEvent where
  plate : String
  status : Status
  totalChecked : Option Nat
  error : Option String
deriving DecidableEq, Repr

/-- The sequential router's per-plate loop: a provisional CHECKING event,
then the result event whose `totalChecked` is read from
`plateFinder.platesChecked` — which `getPlateStatus` never increments. -/
def checkPlatesSeqLoop (env : String → ProbeOutcome) (st : FinderState) :
    List String → List SeqEvent
  | [] => []
  | p :: rest =>
    let r := getPlateStatus p (env p) st
    ⟨toUpperJS p, .CHECKING, none, none⟩ ::
    ⟨toUpperJS p, routerVerdict r.1, some r.2.platesChecked,
      if r.1 = "ERROR" then some "Failed to check plate" else none⟩ ::
    checkPlatesSeqLoop env r.2 rest

/-- The sequential router's `checkPlates` subscription on the successful-init
path: two SYSTEM notices, then the per-plate loop on a fresh finder. -/
def checkPlatesSeq (env : String → ProbeOutcome) (plates : List String) :
    List SeqEvent :=
  ⟨"SYSTEM", .CHECKING, none, some "Initializing DMV session..."⟩ ::
  ⟨"SYSTEM", .CHECKING, none, some "Session initialized. Starting plate checks..."⟩ ::
  checkPlatesSeqLoop env initialFinderState plates

/-! ## CLI candidate generator (`index.ts`, `getNextPlate`) -/

/-- The `plates.txt` line filter of `getNextPlate`: the trimmed line is
yielded when it is truthy (non-empty) and its length is between
`MINIMUM_LENGTH = 2` and `MAXIMUM_LENGTH = 7`. -/
def admitTrimmed (t : String) : Bool :=
  (!(t == "")) && decide (2 ≤ t.length) && decide (t.length ≤ 7)

/-- What one line of `plates.txt` contributes: its trimmed form, when
admitted. -/
def lineYield (line : String) : Option String :=
  let t := trimJS line
  if admitTrimmed t then some t else none

/-- All candidates read from `plates.txt`, in order. -/
def fileCandidates (lines : List String) : List String :=
  lines.filterMap lineYield

/-- The generation alphabet `chars`. -/
def genChars : List Char := "ABCDEFGHIJKLMNOPQRSTUVWXYZ0123456789".data

/-- `combinationsWithReplacement(chars, n)`: all non-decreasing (by alphabet
position) tuples of length `n`, in lexicographic order of positions. -/
def combosWR : List Char → Nat → List (List Char)
  | _, 0 => [[]]
  | [], Nat.succ _ => []
  | c :: cs, Nat.succ n =>
    ((combosWR (c :: cs) n).map fun t => c :: t) ++ combosWR cs (n + 1)
termination_by cs n => cs.length + n

/-- The fallback combinatorial source: `COMBO_LENGTH = 3` joined
combinations. -/
def combos3 : List String := (combosWR genChars 3).map String.mk

/-- What the shared generator yields after the initial `"TEST"`. -/
def tailSource (platesFileExists : Bool) (lines : List String) : List String :=
  if platesFileExists then fileCandidates lines else combos3

/-- The full candidate sequence of `getNextPlate`: the fixed initial
`yield "TEST"`, then either the filtered `plates.txt` lines or the generated
combinations. -/
def getNextPlateList (platesFileExists : Bool) (lines : List String) : List String :=
  "TEST" :: tailSource platesFileExists lines

/-- The claim's admission rule, stated from the spec's words for comparison:
trimmed, non-empty, length 1–7, alphanumeric. -/
def claimLineYield (line : String) : Option String :=
  let t := trimJS line
  if (!(t == "")) && decide (1 ≤ t.length) && decide (t.length ≤ 7)
      && t.data.all Char.isAlphanum
  then some t else none

/-! ## CLI worker pool (`index.ts` `main` + `PlateFinder.run`)

All workers share one generator; each pull of the generator is atomic
(concurrent `next()` calls on a JS async generator are served one element
each, in turn). A run is therefore modelled by a schedule: the list of
worker indices in the order in which their pulls are served. Each scheduled
step is one iteration of that worker's `run` loop: pull one plate, probe it,
increment the worker's own `platesChecked`. -/

/-- One CLI worker: its finder's mutable state plus the list of plates it has
pulled and checked, in order. -/
structure Worker where
  st : FinderState
  processed : List String
deriving DecidableEq, Repr

/-- One iteration of `PlateFinder.run` on a pulled plate: probe it (updating
`availablePlates`), then `this.platesChecked++`. -/
def workerCheck (env : String → ProbeOutcome) (w : Worker) (p : String) : Worker :=
  let r := getPlateStatus p (env p) w.st
  { st := { r.2 with platesChecked := r.2.platesChecked + 1 }
    processed := w.processed ++ [p] }

/-- The pool: the not-yet-pulled suffix of the shared generator, and the
workers. -/
structure Pool where
  remaining : List String
  workers : List Worker
deriving DecidableEq, Repr

/-- `main`'s setup: `NUM_PARALLEL` fresh workers around one shared
generator. -/
def initPool (n : Nat) (source : List String) : Pool :=
  { remaining := source, workers := List.replicate n ⟨initialFinderState, []⟩ }

/-- One scheduled step: worker `i` pulls the next plate (atomically) and
processes it. A worker scheduled when the source is exhausted observes
exhaustion and its loop ends (no state change); an index that names no
worker does nothing. -/
def poolStep (env : String → ProbeOutcome) (s : Pool) (i : Nat) : Pool :=
  match s.remaining with
  | [] => s
  | p :: rest =>
    if hi : i < s.workers.length then
      { remaining := rest
        workers := s.workers.set i (workerCheck env s.workers[i] p) }
    else s

/-- A whole run under a given schedule. -/
def runPool (env : String → ProbeOutcome) (s : Pool) : List Nat → Pool
  | [] => s
  | i :: sched => runPool env (poolStep env s i) sched

/-- Every plate processed by any worker (concatenated per worker). -/
def allProcessed (s : Pool) : List String :=
  (s.workers.map fun w => w.processed).flatten

/-- `main`'s `workers.flatMap((worker) => worker.availablePlates)`. -/
def availableAccum (s : Pool) : List String :=
  (s.workers.map fun w => w.st.availablePlates).flatten

/-- `main`'s final summary: `allAvailablePlates.sort()`. -/
def finalSummary (s : Pool) : List String := sortJS (availableAccum s)

/-- The uppercased AVAILABLE-classified plates of a list of pulls, in order —
what the accumulator should contain for those pulls. -/
def availFilter (env : String → ProbeOutcome) (l : List String) : List String :=
  (l.filter fun p => checkedStatus (env p) == "AVAILABLE").map toUpperJS

/-! ## Concrete environments used by witnesses and counterexamples -/

/-- A remote that answers every probe with code `"AVAILABLE"`. -/
def envAvail : String → ProbeOutcome :=
  fun _ => .response 200 (.json (some "AVAILABLE"))

/-- A remote that answers every probe with code `"TAKEN"`. -/
def envTaken : String → ProbeOutcome :=
  fun _ => .response 200 (.json (some "TAKEN"))

/-! ## Helper lemmas -/

/-- The status string of a probe depends only on the probe outcome. -/
theorem getPlateStatus_fst (p : String) (o : ProbeOutcome) (st : FinderState) :
    (getPlateStatus p o st).1 = checkedStatus o := by
  unfold getPlateStatus getPlateStatusBody checkedStatus
  cases h : plateStatusBody o <;> simp [Except.map, h]

/-- The state effect of one probe: exactly the AVAILABLE push, else nothing. -/
theorem getPlateStatus_snd (p : String) (o : ProbeOutcome) (st : FinderState) :
    (getPlateStatus p o st).2 =
      if checkedStatus o = "AVAILABLE"
      then { st with availablePlates := st.availablePlates ++ [toUpperJS p] }
      else st := by
  unfold getPlateStatus getPlateStatusBody checkedStatus
  cases h : plateStatusBody o with
  | error e =>
    have : ¬("ERROR" = "AVAILABLE") := by decide
    simp [Except.map, h, this]
  | ok s => simp [Except.map, h]

theorem lexLe_total : ∀ as bs, lexLe as bs = true ∨ lexLe bs as = true := by
  intro as
  induction as with
  | nil => intro bs; left; rfl
  | cons a as ih =>
    intro bs
    cases bs with
    | nil => right; rfl
    | cons b bs =>
      simp only [lexLe]
      rcases Nat.lt_trichotomy a.toNat b.toNat with h | h | h
      · left; simp [h]
      · rcases ih bs with h2 | h2 <;> simp [h, h2]
      · right; simp [h, Nat.lt_asymm h]

theorem lexLe_trans :
    ∀ as bs cs, lexLe as bs = true → lexLe bs cs = true → lexLe as cs = true := by
  intro as
  induction as with
  | nil => intro bs cs _ _; rfl
  | cons a as ih =>
    intro bs cs h1 h2
    cases bs with
    | nil => simp [lexLe] at h1
    | cons b bs =>
      cases cs with
      | nil => simp [lexLe] at h2
      | cons c cs =>
        simp only [lexLe] at h1 h2 ⊢
        rcases Nat.lt_trichotomy a.toNat b.toNat with hab | hab | hab <;>
          rcases Nat.lt_trichotomy b.toNat c.toNat with hbc | hbc | hbc
        · simp [Nat.lt_trans hab hbc]
        · simp [hbc ▸ hab]
        · rw [if_neg (Nat.lt_asymm hbc), if_pos hbc] at h2; exact absurd h2 (by simp)
        · simp [hab ▸ hbc]
        · rw [if_neg (by omega), if_neg (by omega)] at h1 ⊢
          rw [if_neg (by omega), if_neg (by omega)] at h2
          exact ih bs cs h1 h2
        · rw [if_neg (Nat.lt_asymm hbc), if_pos hbc] at h2; exact absurd h2 (by simp)
        · rw [if_neg (Nat.lt_asymm hab), if_pos hab] at h1; exact absurd h1 (by simp)
        · rw [if_neg (Nat.lt_asymm hab), if_pos hab] at h1; exact absurd h1 (by simp)
        · rw [if_neg (Nat.lt_asymm hab), if_pos hab] at h1; exact absurd h1 (by simp)

instance : IsTotal String strLeProp :=
  ⟨fun a b => lexLe_total a.data b.data⟩

instance : IsTrans String strLeProp :=
  ⟨fun a b c => lexLe_trans a.data b.data c.data⟩

theorem sortJS_sorted (l : List String) : List.Sorted strLeProp (sortJS l) :=
  List.sorted_insertionSort strLeProp l

theorem sortJS_perm (l : List String) : (sortJS l).Perm l :=
  List.perm_insertionSort strLeProp l

theorem emitResults_length (rs : List RouterResult) :
    ∀ e t, (emitResults e t rs).length = rs.length := by
  induction rs with
  | nil => intro e t; rfl
  | cons r rs ih => intro e t; simp [emitResults, ih]

theorem emitResults_get (rs : List RouterResult) :
    ∀ e t k (hk : k < rs.length),
      (emitResults e t rs)[k]? =
        some ⟨e + k, (rs.get ⟨k, hk⟩).plate, (rs.get ⟨k, hk⟩).status,
          some (t + k + 1), (rs.get ⟨k, hk⟩).error⟩ := by
  induction rs with
  | nil => intro e t k hk; exact absurd hk (by simp)
  | cons r rs ih =>
    intro e t k hk
    cases k with
    | zero => simp [emitResults]
    | succ k =>
      have hk2 : k < rs.length := Nat.succ_lt_succ_iff.mp hk
      have h3 := ih (e + 1) (t + 1) k hk2
      have h1 : e + 1 + k = e + (k + 1) := by omega
      have h2 : t + 1 + k + 1 = t + (k + 1) + 1 := by omega
      rw [h1, h2] at h3
      simp only [emitResults, List.getElem?_cons_succ, List.get_cons_succ]
      exact h3

theorem initFinders_error_iff (outcomes : List (Except String Unit)) :
    (∃ e, initFinders outcomes = .error e) ↔ allOk outcomes = false := by
  induction outcomes with
  | nil => simp [initFinders, allOk]
  | cons o rest ih =>
    cases o with
    | error e => simp [initFinders, allOk]
    | ok u =>
      have hcons : allOk (Except.ok u :: rest) = allOk rest := by simp [allOk]
      rw [hcons, ← ih]
      constructor
      · rintro ⟨e, he⟩
        cases h : initFinders rest with
        | ok n =>
          rw [initFinders, h] at he
          exact absurd he (by simp [Except.map])
        | error e2 => exact ⟨e2, rfl⟩
      · rintro ⟨e, he⟩
        exact ⟨e, by rw [initFinders, he]; rfl⟩

theorem flatten_set_append {α : Type} (L : List (List α)) :
    ∀ (k : Nat) (p : α) (hk : k < L.length),
      ((L.set k (L.get ⟨k, hk⟩ ++ [p])).flatten).Perm (L.flatten ++ [p]) := by
  induction L with
  | nil => intro k p hk; exact absurd hk (by simp)
  | cons a t ih =>
    intro k p hk
    cases k with
    | zero =>
      simp only [List.set, List.get, List.flatten_cons, List.append_assoc]
      exact List.Perm.append_left a List.perm_append_comm
    | succ k =>
      have hk2 : k < t.length := Nat.succ_lt_succ_iff.mp hk
      simp only [List.set, List.get, List.flatten_cons]
      have h1 := List.Perm.append_left a (ih k p hk2)
      rw [← List.append_assoc] at h1
      exact h1

theorem poolStep_conserve (env : String → ProbeOutcome) (s : Pool) (i : Nat) :
    (allProcessed (poolStep env s i) ++ (poolStep env s i).remaining).Perm
      (allProcessed s ++ s.remaining) := by
  obtain ⟨rem, ws⟩ := s
  cases rem with
  | nil => simp [poolStep]
  | cons p rest =>
    by_cases hi : i < ws.length
    · have hk : i < (ws.map fun w => w.processed).length := by simpa using hi
      have hset : (ws.set i (workerCheck env ws[i] p)).map (fun w => w.processed)
          = (ws.map fun w => w.processed).set i
              ((ws.map fun w => w.processed).get ⟨i, hk⟩ ++ [p]) := by
        rw [List.map_set]
        congr 1
        simp [workerCheck, List.get_eq_getElem, List.getElem_map]
      simp only [poolStep, dif_pos hi, allProcessed]
      rw [hset]
      have h2 := List.Perm.append_right rest (flatten_set_append
        (ws.map fun w => w.processed) i p hk)
      rw [List.append_assoc] at h2
      exact h2
    · simp [poolStep, hi]

theorem runPool_conserve (env : String → ProbeOutcome) (sched : List Nat) :
    ∀ s : Pool,
      (allProcessed (runPool env s sched) ++ (runPool env s sched).remaining).Perm
        (allProcessed s ++ s.remaining) := by
  induction sched with
  | nil => intro s; simp [runPool]
  | cons i sched ih =>
    intro s
    exact (ih (poolStep env s i)).trans (poolStep_conserve env s i)

theorem allProcessed_initPool (n : Nat) (source : List String) :
    allProcessed (initPool n source) = [] := by
  unfold allProcessed initPool
  induction n with
  | zero => rfl
  | succ n ih => simp only [List.replicate_succ, List.map_cons, List.flatten_cons, List.nil_append, ih]

theorem count_flatten_one {α : Type} [DecidableEq α] {c : α} :
    ∀ (L : List (List α)), L.flatten.count c = 1 →
      ∀ i j (hi : i < L.length) (hj : j < L.length),
        c ∈ L.get ⟨i, hi⟩ → c ∈ L.get ⟨j, hj⟩ → i = j := by
  intro L
  induction L with
  | nil => intro h i j hi; exact absurd hi (by simp)
  | cons a t ih =>
    intro h i j hi hj hci hcj
    rw [List.flatten_cons, List.count_append] at h
    cases i with
    | zero =>
      cases j with
      | zero => rfl
      | succ j =>
        exfalso
        have h1 : 0 < a.count c := List.count_pos_iff.mpr hci
        have hjlt : j < t.length := Nat.succ_lt_succ_iff.mp hj
        have h2 : 0 < t.flatten.count c :=
          List.count_pos_iff.mpr (List.mem_flatten.mpr
            ⟨t.get ⟨j, hjlt⟩, List.get_mem t j hjlt, hcj⟩)
        omega
    | succ i =>
      cases j with
      | zero =>
        exfalso
        have h1 : 0 < a.count c := List.count_pos_iff.mpr hcj
        have hilt : i < t.length := Nat.succ_lt_succ_iff.mp hi
        have h2 : 0 < t.flatten.count c :=
          List.count_pos_iff.mpr (List.mem_flatten.mpr
            ⟨t.get ⟨i, hilt⟩, List.get_mem t i hilt, hci⟩)
        omega
      | succ j =>
        have hilt : i < t.length := Nat.succ_lt_succ_iff.mp hi
        have hjlt : j < t.length := Nat.succ_lt_succ_iff.mp hj
        have h2 : 0 < t.flatten.count c :=
          List.count_pos_iff.mpr (List.mem_flatten.mpr
            ⟨t.get ⟨i, hilt⟩, List.get_mem t i hilt, hci⟩)
        have hflat : t.flatten.count c = 1 := by omega
        have hij := ih hflat i j hilt hjlt hci hcj
        omega

theorem combosWR_mem_length :
    ∀ (cs : List Char) (n : Nat), ∀ l ∈ combosWR cs n, l.length = n
  | _, 0 => by simp [combosWR]
  | [], Nat.succ m => by simp [combosWR]
  | c :: cs, Nat.succ m => by
    intro l hl
    simp only [combosWR, List.mem_append, List.mem_map] at hl
    rcases hl with ⟨t, ht, rfl⟩ | hl
    · simp [combosWR_mem_length (c :: cs) m t ht]
    · exact combosWR_mem_length cs (m + 1) l hl
  termination_by cs n => cs.length + n

theorem test_not_mem_combos3 : "TEST" ∉ combos3 := by
  intro h
  simp only [combos3, List.mem_map] at h
  rcases h with ⟨l, hl, he⟩
  have h3 : l.length = 3 := combosWR_mem_length genChars 3 l hl
  have h4 : l = "TEST".data := congrArg String.data he
  rw [h4] at h3
  exact absurd h3 (by decide)

theorem workerCheck_avail (env : String → ProbeOutcome) (w : Worker) (p : String)
    (h : w.st.availablePlates = availFilter env w.processed) :
    (workerCheck env w p).st.availablePlates =
      availFilter env (workerCheck env w p).processed := by
  show (getPlateStatus p (env p) w.st).2.availablePlates
      = availFilter env (w.processed ++ [p])
  rw [getPlateStatus_snd]
  unfold availFilter at h ⊢
  by_cases hav : checkedStatus (env p) = "AVAILABLE"
  · simp [hav, List.filter_append, h]
  · have : ¬((checkedStatus (env p) == "AVAILABLE") = true) := by
      simpa using hav
    simp [hav, List.filter_append, h, this]

theorem runPool_avail (env : String → ProbeOutcome) (sched : List Nat) :
    ∀ s : Pool,
      (∀ w ∈ s.workers, w.st.availablePlates = availFilter env w.processed) →
      ∀ w ∈ (runPool env s sched).workers,
        w.st.availablePlates = availFilter env w.processed := by
  induction sched with
  | nil => intro s h; exact h
  | cons i sched ih =>
    intro s h
    refine ih (poolStep env s i) ?_
    obtain ⟨rem, ws⟩ := s
    cases rem with
    | nil => exact h
    | cons p rest =>
      by_cases hi : i < ws.length
      · intro w hw
        simp only [poolStep, dif_pos hi] at hw
        rcases List.mem_or_eq_of_mem_set hw with hw2 | rfl
        · exact h w hw2
        · exact workerCheck_avail env _ p (h _ (List.getElem_mem hi))
      · intro w hw
        simp only [poolStep, dif_neg hi] at hw
        exact h w hw

theorem availFilter_flatten (env : String → ProbeOutcome) (L : List (List String)) :
    availFilter env L.flatten = (L.map (availFilter env)).flatten := by
  induction L with
  | nil => rfl
  | cons a t ih =>
    show availFilter env (a ++ t.flatten)
        = availFilter env a ++ (t.map (availFilter env)).flatten
    rw [← ih]
    unfold availFilter
    rw [List.filter_append, List.map_append]

theorem availableAccum_eq (env : String → ProbeOutcome) (s : Pool)
    (h : ∀ w ∈ s.workers, w.st.availablePlates = availFilter env w.processed) :
    availableAccum s = availFilter env (allProcessed s) := by
  unfold availableAccum allProcessed
  rw [availFilter_flatten, List.map_map]
  congr 1
  exact List.map_congr_left h

theorem emitResults_get_eq (rs : List RouterResult) (e t k : Nat)
    (hk : k < rs.length) (hk2 : k < (emitResults e t rs).length) :
    (emitResults e t rs).get ⟨k, hk2⟩ =
      ⟨e + k, (rs.get ⟨k, hk⟩).plate, (rs.get ⟨k, hk⟩).status,
        some (t + k + 1), (rs.get ⟨k, hk⟩).error⟩ := by
  have h := emitResults_get rs e t k hk
  rw [List.getElem?_eq_getElem hk2] at h
  rw [List.get_eq_getElem]
  exact Option.some.inj h

/-! ## Claim theorems -/

/-- C2: the probe never throws to its caller: every failure mode of its try
block — a transport failure during payload submission or response reading, a
non-2xx HTTP response, an unparsable body — is an `error` of the fallible
body, and `getPlateStatus` catches each one and returns the `"ERROR"` verdict
with the finder state unchanged; in general any body failure is converted,
never propagated. -/
theorem probe_never_throws (plate msg : String) (sc : Nat) (b : BodyContent)
    (st : FinderState) :
    ((∃ e, getPlateStatusBody plate (.transportError msg) st = .error e) ∧
      getPlateStatus plate (.transportError msg) st = ("ERROR", st)) ∧
    (sc ≠ 200 →
      (∃ e, getPlateStatusBody plate (.response sc b) st = .error e) ∧
      getPlateStatus plate (.response sc b) st = ("ERROR", st)) ∧
    ((∃ e, getPlateStatusBody plate (.response 200 .unparsable) st = .error e) ∧
      getPlateStatus plate (.response 200 .unparsable) st = ("ERROR", st)) ∧
    (∀ o e, getPlateStatusBody plate o st = .error e →
      getPlateStatus plate o st = ("ERROR", st)) := by
  have hconv : ∀ o e, getPlateStatusBody plate o st = .error e →
      getPlateStatus plate o st = ("ERROR", st) := by
    intro o e h
    unfold getPlateStatus
    rw [h]
  refine ⟨?_, ?_, ?_, hconv⟩
  · refine ⟨⟨msg, ?_⟩, hconv _ msg ?_⟩ <;>
      simp [getPlateStatusBody, plateStatusBody, Except.map]
  · intro hsc
    have he : getPlateStatusBody plate (.response sc b) st
        = .error ("Unexpected status code: " ++ toString sc) := by
      simp [getPlateStatusBody, plateStatusBody, hsc, Except.map]
    exact ⟨⟨_, he⟩, hconv _ _ he⟩
  · have he : getPlateStatusBody plate (.response 200 .unparsable) st
        = .error "Unexpected token in JSON" := by
      simp [getPlateStatusBody, plateStatusBody, Except.map]
    exact ⟨⟨_, he⟩, hconv _ _ he⟩

/-- C2 witness: a non-200 response is caught and returned as `"ERROR"`. -/
theorem probe_never_throws_witness :
    (∃ e, getPlateStatusBody "AB" (.response 500 (.json (some "AVAILABLE")))
        initialFinderState = .error e) ∧
    getPlateStatus "AB" (.response 500 (.json (some "AVAILABLE")))
        initialFinderState = ("ERROR", initialFinderState) :=
  (probe_never_throws "AB" "socket hang up" 500 (.json (some "AVAILABLE"))
    initialFinderState).2.1 (by decide)

/-- C4 counterexample: a 200 response whose parsed body lacks the status
field is classified UNAVAILABLE by the code (the field defaults to
`"UNKNOWN"`), not ERROR as the claim states. -/
theorem verdict_missing_field_cex :
    routerStatusOf (.response 200 (.json none)) = .UNAVAILABLE ∧
    routerStatusOf (.response 200 (.json none)) ≠ .ERROR := by
  constructor <;> decide

/-- C4 (amended): the router's verdict for a probe is AVAILABLE exactly on a
200 response parsing to the `"AVAILABLE"` sentinel; it is ERROR exactly on a
transport failure, a non-2xx response, an unparsable body, or a body whose
status field is the literal `"ERROR"` string; every other field value —
including a missing or empty one, which defaults to `"UNKNOWN"` — is
classified UNAVAILABLE. -/
theorem verdict_mapping (o : ProbeOutcome) (plate : String)
    (env : String → ProbeOutcome) :
    ((routerResult env plate).status = routerStatusOf (env plate)) ∧
    (routerStatusOf o = .AVAILABLE ↔
      o = .response 200 (.json (some "AVAILABLE"))) ∧
    (routerStatusOf o = .ERROR ↔
      ((∃ m, o = .transportError m) ∨
       (∃ sc b, o = .response sc b ∧ sc ≠ 200) ∨
       o = .response 200 .unparsable ∨
       o = .response 200 (.json (some "ERROR")))) := by
  refine ⟨rfl, ?_, ?_⟩
  · cases o with
    | transportError m =>
      simp [routerStatusOf, checkedStatus, plateStatusBody, routerVerdict]
    | response sc body =>
      by_cases h200 : sc = 200
      · subst h200
        cases body with
        | unparsable =>
          simp [routerStatusOf, checkedStatus, plateStatusBody, routerVerdict]
        | json code =>
          cases code with
          | none =>
            simp [routerStatusOf, checkedStatus, plateStatusBody, routerVerdict]
          | some c =>
            by_cases hA : c = "AVAILABLE"
            · subst hA
              simp [routerStatusOf, checkedStatus, plateStatusBody,
                routerVerdict]
            · by_cases h0 : c = ""
              · subst h0
                simp [routerStatusOf, checkedStatus, plateStatusBody,
                  routerVerdict]
              · by_cases hE : c = "ERROR"
                · subst hE
                  simp [routerStatusOf, checkedStatus, plateStatusBody,
                    routerVerdict]
                · simp [routerStatusOf, checkedStatus, plateStatusBody,
                    routerVerdict, hA, h0, hE]
      · simp [routerStatusOf, checkedStatus, plateStatusBody, routerVerdict,
          h200]
  · cases o with
    | transportError m =>
      refine iff_of_true ?_ (Or.inl ⟨m, rfl⟩)
      simp [routerStatusOf, checkedStatus, plateStatusBody, routerVerdict]
    | response sc body =>
      by_cases h200 : sc = 200
      · subst h200
        cases body with
        | unparsable =>
          refine iff_of_true ?_ (Or.inr (Or.inr (Or.inl rfl)))
          simp [routerStatusOf, checkedStatus, plateStatusBody, routerVerdict]
        | json code =>
          cases code with
          | none =>
            simp [routerStatusOf, checkedStatus, plateStatusBody, routerVerdict]
          | some c =>
            by_cases hA : c = "AVAILABLE"
            · subst hA
              simp [routerStatusOf, checkedStatus, plateStatusBody,
                routerVerdict]
            · by_cases h0 : c = ""
              · subst h0
                simp [routerStatusOf, checkedStatus, plateStatusBody,
                  routerVerdict]
              · by_cases hE : c = "ERROR"
                · subst hE
                  refine iff_of_true ?_ (Or.inr (Or.inr (Or.inr rfl)))
                  simp [routerStatusOf, checkedStatus, plateStatusBody,
                    routerVerdict]
                · simp [routerStatusOf, checkedStatus, plateStatusBody,
                    routerVerdict, hA, h0, hE]
      · refine iff_of_true ?_ (Or.inr (Or.inl ⟨sc, body, rfl, h200⟩))
        simp [routerStatusOf, checkedStatus, plateStatusBody, routerVerdict,
          h200]

/-- C8: one probe appends exactly the uppercased candidate to the finder's
`availablePlates` accumulator when the returned status is `"AVAILABLE"`, and
leaves the whole finder state unchanged otherwise. -/
theorem available_accumulator (plate : String) (o : ProbeOutcome)
    (st : FinderState) :
    ((getPlateStatus plate o st).1 = "AVAILABLE" →
      (getPlateStatus plate o st).2 =
        { st with availablePlates := st.availablePlates ++ [toUpperJS plate] }) ∧
    ((getPlateStatus plate o st).1 ≠ "AVAILABLE" →
      (getPlateStatus plate o st).2 = st) := by
  constructor <;> intro h <;> rw [getPlateStatus_snd] <;>
    rw [getPlateStatus_fst] at h <;> simp [h]

/-- C8 witness: an AVAILABLE probe on `"ab"` appends `"AB"`; a taken probe
changes nothing. -/
theorem available_accumulator_witness :
    (getPlateStatus "ab" (envAvail "ab") initialFinderState).2 =
      { initialFinderState with
        availablePlates :=
          initialFinderState.availablePlates ++ [toUpperJS "ab"] } ∧
    (getPlateStatus "ab" (envTaken "ab") initialFinderState).2 =
      initialFinderState :=
  ⟨(available_accumulator "ab" (envAvail "ab") initialFinderState).1 (by decide),
   (available_accumulator "ab" (envTaken "ab") initialFinderState).2 (by decide)⟩

/-- C6 counterexample: the line `"A"` (alphanumeric, length 1) satisfies the
claimed 1–7 alphanumeric bounds but is not yielded — the code's minimum
length is 2 — while the line `" !@ "` trims to the non-alphanumeric `"!@"`
and is yielded. The claimed iff fails in both directions. -/
theorem line_filter_cex :
    lineYield "A" = none ∧ claimLineYield "A" = some "A" ∧
    lineYield " !@ " = some "!@" ∧ claimLineYield " !@ " = none := by
  refine ⟨?_, ?_, ?_, ?_⟩ <;> decide

/-- C6 (amended): the CLI line filter admits exactly the lines whose trimmed
form has length between 2 and 7 inclusive; no alphanumeric restriction is
applied, and an admitted line is yielded as its trimmed form. -/
theorem line_filter_amended (line : String) :
    (∃ t, lineYield line = some t) ↔
      2 ≤ (trimJS line).length ∧ (trimJS line).length ≤ 7 := by
  unfold lineYield admitTrimmed
  by_cases h2 : 2 ≤ (trimJS line).length
  · by_cases h7 : (trimJS line).length ≤ 7
    · have hne : ¬((trimJS line == "") = true) := by
        intro hb
        have hempty : trimJS line = "" := eq_of_beq hb
        rw [hempty] at h2
        exact absurd h2 (by decide)
      simp [hne, h2, h7]
    · simp [h2, h7]
  · simp [h2]

/-- C7: within one parallel-router stream the event ids start at 0 and each
event's id is its predecessor's plus one — strictly increasing with no gaps,
on the normal path and on the failed-init path alike. -/
theorem sequence_ids (outcomes : List (Except String Unit))
    (env : String → ProbeOutcome) (plates : List String) :
    (∀ ev, (checkPlatesStream outcomes env plates)[0]? = some ev →
      ev.eventId = 0) ∧
    (∀ k ev ev2, (checkPlatesStream outcomes env plates)[k]? = some ev →
      (checkPlatesStream outcomes env plates)[k + 1]? = some ev2 →
      ev2.eventId = ev.eventId + 1) := by
  unfold checkPlatesStream
  cases h : initFinders outcomes with
  | error e =>
    constructor
    · intro ev hev
      have h1 : (⟨0, "SYSTEM", Status.ERROR, none, some e⟩ : StreamEvent) = ev := by
        simpa using hev
      rw [← h1]
    · intro k ev ev2 hev hev2
      rw [List.getElem?_cons_succ, List.getElem?_nil] at hev2
      exact absurd hev2 (by simp)
  | ok m =>
    set rs := (plates.take 1000).map (routerResult env) with hrs
    constructor
    · intro ev hev
      have h0 : 0 < rs.length := by
        by_contra hlen
        have : rs.length = 0 := by omega
        have hnil : rs = [] := List.length_eq_zero.mp this
        rw [hnil] at hev
        exact absurd hev (by simp [emitResults])
      rw [emitResults_get rs 0 0 0 h0] at hev
      obtain rfl := (Option.some.inj hev).symm
      simp
    · intro k ev ev2 hev hev2
      have hk1 : k + 1 < rs.length := by
        by_contra hlen
        have hnone : (emitResults 0 0 rs)[k + 1]? = none := by
          refine List.getElem?_eq_none ?_
          rw [emitResults_length]; omega
        rw [hnone] at hev2
        exact absurd hev2 (by simp)
      have hk0 : k < rs.length := Nat.lt_of_succ_lt hk1
      rw [emitResults_get rs 0 0 k hk0] at hev
      rw [emitResults_get rs 0 0 (k + 1) hk1] at hev2
      obtain rfl := (Option.some.inj hev).symm
      obtain rfl := (Option.some.inj hev2).symm
      simp

/-- C7 witness: on a concrete two-plate stream the first id is 0 and the
second is the first plus one. -/
theorem sequence_ids_witness :
    ∃ ev ev2,
      (checkPlatesStream [Except.ok ()] envTaken ["AB", "CD"])[0]? = some ev ∧
      (checkPlatesStream [Except.ok ()] envTaken ["AB", "CD"])[1]? = some ev2 ∧
      ev.eventId = 0 ∧ ev2.eventId = ev.eventId + 1 := by
  have h := sequence_ids [Except.ok ()] envTaken ["AB", "CD"]
  refine ⟨⟨0, "AB", Status.UNAVAILABLE, some 1, none⟩,
    ⟨1, "CD", Status.UNAVAILABLE, some 2, none⟩, by decide, by decide, ?_, ?_⟩
  · exact h.1 _ (by decide)
  · exact h.2 0 _ _ (by decide) (by decide)

/-- C1 counterexample: in the sequential router a one-plate run's only
CheckResult event (stream index 3, after the two SYSTEM notices and the
CHECKING event) reports `totalChecked = 0`, not 1 as the claim requires:
the router reads `plateFinder.platesChecked`, which `getPlateStatus` never
increments. -/
theorem running_total_cex :
    (checkPlatesSeq envAvail ["ABC"]).get ⟨3, by decide⟩ =
      ⟨"ABC", Status.AVAILABLE, some 0, none⟩ ∧ (0 : Nat) ≠ 1 := by
  exact ⟨by decide, by decide⟩

/-- C1 (amended): in the parallel router the counter is genuinely pool-wide:
when every session initializes, the event at 0-based index k — the (k+1)-th
emitted CheckResult — carries `totalChecked = k + 1`, so the k-th emitted
CheckResult reports exactly k and the reported value strictly increases from
event to event. In the sequential router the reported field is the finder's
never-incremented `platesChecked` and is 0 on every event (see the
counterexample). -/
theorem running_total (outcomes : List (Except String Unit))
    (env : String → ProbeOutcome) (plates : List String)
    (hok : allOk outcomes = true) :
    ∀ k ev, (checkPlatesStream outcomes env plates)[k]? = some ev →
      ev.totalChecked = some (k + 1) := by
  intro k ev hev
  cases h : initFinders outcomes with
  | error e =>
    have : allOk outcomes = false := (initFinders_error_iff outcomes).mp ⟨e, h⟩
    rw [hok] at this
    exact absurd this (by decide)
  | ok m =>
    have hstream : checkPlatesStream outcomes env plates
        = emitResults 0 0 ((plates.take 1000).map (routerResult env)) := by
      unfold checkPlatesStream; rw [h]
    rw [hstream] at hev
    set rs := (plates.take 1000).map (routerResult env) with hrs
    have hk : k < rs.length := by
      by_contra hlen
      have hnone : (emitResults 0 0 rs)[k]? = none := by
        refine List.getElem?_eq_none ?_
        rw [emitResults_length]; omega
      rw [hnone] at hev
      exact absurd hev (by simp)
    rw [emitResults_get rs 0 0 k hk] at hev
    obtain rfl := (Option.some.inj hev).symm
    simp

/-- C1 witness: the second emitted result of a concrete two-plate parallel
stream carries `totalChecked = 2`. -/
theorem running_total_witness :
    ∃ ev, (checkPlatesStream [Except.ok ()] envAvail ["AB", "CD"])[1]? = some ev ∧
      ev.totalChecked = some 2 := by
  refine ⟨⟨1, "CD", Status.AVAILABLE, some 2, none⟩, by decide, ?_⟩
  exact running_total [Except.ok ()] envAvail ["AB", "CD"] (by decide) 1 _ (by decide)

/-- C3 counterexample: with two sessions — one acquired, one failed — and one
plate requested, the parallel router aborts the whole run: the stream is
exactly one SYSTEM ERROR event and no candidate is checked. The surviving
session does not keep running, contradicting the claim that a single
acquisition failure merely reduces the worker count and that the run fails
only when all acquisitions fail. -/
theorem pool_init_cex :
    checkPlatesStream
        [Except.ok (), Except.error "Failed to initialize session: socket hang up"]
        envAvail ["AB"] =
      [⟨0, "SYSTEM", Status.ERROR, none,
        some "Failed to initialize session: socket hang up"⟩] := by
  decide

/-- C3 (amended): pool startup is all-or-nothing. The init loop fails iff any
of the session acquisitions fails; in that case the run aborts with a single
terminal SYSTEM ERROR event and zero candidates processed, even when other
acquisitions succeeded. All submitted plates (capped at 1000) are checked —
one result event each, carrying its uppercased plate — exactly when every
acquisition succeeds. (The CLI behaves the same way: `Promise.all` over
`worker.initialize()` rejects on the first failure.) -/
theorem pool_init_all_or_nothing (outcomes : List (Except String Unit))
    (env : String → ProbeOutcome) (plates : List String) :
    ((∃ e, initFinders outcomes = .error e) ↔ allOk outcomes = false) ∧
    (allOk outcomes = false →
      ∃ e, checkPlatesStream outcomes env plates =
        [⟨0, "SYSTEM", Status.ERROR, none, some e⟩]) ∧
    (allOk outcomes = true →
      (checkPlatesStream outcomes env plates).length =
        (plates.take 1000).length ∧
      ∀ k (hk : k < (plates.take 1000).length),
        ∃ ev, (checkPlatesStream outcomes env plates)[k]? = some ev ∧
          ev.plate = toUpperJS ((plates.take 1000).get ⟨k, hk⟩)) := by
  refine ⟨initFinders_error_iff outcomes, ?_, ?_⟩
  · intro hfalse
    obtain ⟨e, he⟩ := (initFinders_error_iff outcomes).mpr hfalse
    exact ⟨e, by unfold checkPlatesStream; rw [he]⟩
  · intro htrue
    cases h : initFinders outcomes with
    | error e =>
      have : allOk outcomes = false := (initFinders_error_iff outcomes).mp ⟨e, h⟩
      rw [htrue] at this
      exact absurd this (by decide)
    | ok m =>
      have hstream : checkPlatesStream outcomes env plates
          = emitResults 0 0 ((plates.take 1000).map (routerResult env)) := by
        unfold checkPlatesStream; rw [h]
      refine ⟨by rw [hstream, emitResults_length, List.length_map], ?_⟩
      intro k hk
      have hkm : k < ((plates.take 1000).map (routerResult env)).length := by
        rw [List.length_map]; exact hk
      refine ⟨_, by rw [hstream]; exact emitResults_get _ 0 0 k hkm, ?_⟩
      show (((plates.take 1000).map (routerResult env)).get ⟨k, hkm⟩).plate
          = toUpperJS ((plates.take 1000).get ⟨k, hk⟩)
      simp only [List.get_eq_getElem, List.getElem_map]
      rfl

/-- C3 witness: a one-failure init yields the single SYSTEM ERROR stream, and
an all-success init checks the submitted plate. -/
theorem pool_init_witness :
    (∃ e, checkPlatesStream [Except.error "Failed to obtain session ID!"]
        envTaken ["AB"] = [⟨0, "SYSTEM", Status.ERROR, none, some e⟩]) ∧
    (checkPlatesStream [Except.ok (), Except.ok ()] envTaken ["AB"]).length = 1 := by
  constructor
  · exact (pool_init_all_or_nothing [Except.error "Failed to obtain session ID!"]
      envTaken ["AB"]).2.1 (by decide)
  · have h := (pool_init_all_or_nothing [Except.ok (), Except.ok ()]
      envTaken ["AB"]).2.2 (by decide)
    exact h.1.trans (by decide)

/-- C9: exactly-once delivery from the shared generator. For every schedule
under which a pool of N ≥ 2 workers drains a finite source, the plates
processed across all workers form a permutation of the source (no loss, no
duplication of any produced occurrence, for every interleaving); with a
duplicate-free source, every candidate is processed exactly once pool-wide
and no two distinct workers both observe it. -/
theorem exactly_once (env : String → ProbeOutcome) (n : Nat)
    (source : List String) (sched : List Nat) (_hn : 2 ≤ n)
    (hdone : (runPool env (initPool n source) sched).remaining = []) :
    (allProcessed (runPool env (initPool n source) sched)).Perm source ∧
    (source.Nodup → ∀ c ∈ source,
      (allProcessed (runPool env (initPool n source) sched)).count c = 1 ∧
      (∃ i, ∃ hi : i < (runPool env (initPool n source) sched).workers.length,
        c ∈ ((runPool env (initPool n source) sched).workers.get
          ⟨i, hi⟩).processed) ∧
      (∀ i j
        (hi : i < (runPool env (initPool n source) sched).workers.length)
        (hj : j < (runPool env (initPool n source) sched).workers.length),
        c ∈ ((runPool env (initPool n source) sched).workers.get
          ⟨i, hi⟩).processed →
        c ∈ ((runPool env (initPool n source) sched).workers.get
          ⟨j, hj⟩).processed →
        i = j)) := by
  have hcons := runPool_conserve env sched (initPool n source)
  rw [allProcessed_initPool, List.nil_append] at hcons
  have hsrc : (initPool n source).remaining = source := rfl
  rw [hsrc, hdone, List.append_nil] at hcons
  refine ⟨hcons, ?_⟩
  intro hnd c hc
  have hcount :
      (allProcessed (runPool env (initPool n source) sched)).count c = 1 := by
    rw [hcons.count_eq]
    exact List.count_eq_one_of_mem hnd hc
  refine ⟨hcount, ?_, ?_⟩
  · have hmem : c ∈ ((runPool env (initPool n source) sched).workers.map
        fun w => w.processed).flatten := hcons.mem_iff.mpr hc
    rcases List.mem_flatten.mp hmem with ⟨l, hl, hcl⟩
    rcases List.mem_map.mp hl with ⟨w, hw, rfl⟩
    rcases List.mem_iff_get.mp hw with ⟨⟨i, hi⟩, rfl⟩
    exact ⟨i, hi, hcl⟩
  · intro i j hi hj hci hcj
    refine count_flatten_one
      ((runPool env (initPool n source) sched).workers.map fun w => w.processed)
      hcount i j (by rw [List.length_map]; exact hi)
      (by rw [List.length_map]; exact hj) ?_ ?_
    · simp only [List.get_eq_getElem, List.getElem_map]
      exact hci
    · simp only [List.get_eq_getElem, List.getElem_map]
      exact hcj

/-- C9 witness: two workers drain a three-plate source under an
interleaving and the processed plates are exactly the source, each once. -/
theorem exactly_once_witness :
    (allProcessed (runPool envTaken (initPool 2 ["AB", "CD", "EF"])
      [0, 1, 0])).Perm ["AB", "CD", "EF"] ∧
    (allProcessed (runPool envTaken (initPool 2 ["AB", "CD", "EF"])
      [0, 1, 0])).count "AB" = 1 := by
  have h := exactly_once envTaken 2 ["AB", "CD", "EF"] [0, 1, 0]
    (by decide) (by decide)
  exact ⟨h.1, (h.2 (by decide) "AB" (by decide)).1⟩

/-- C10: the CLI generator's very first candidate is the hard-coded `"TEST"`,
whatever the plates file contains and whether it exists; the generated
combinations cannot contribute it (they all have length 3); in any completed
pool run some worker processes `"TEST"`, and — whenever the user-supplied
list does not itself contribute a `"TEST"` line — no two distinct workers
both observe it (the shared generator hands it to exactly one). -/
theorem test_probed_first (platesFileExists : Bool) (lines : List String)
    (env : String → ProbeOutcome) (n : Nat) (sched : List Nat)
    (hdone : (runPool env
      (initPool n (getNextPlateList platesFileExists lines)) sched).remaining
        = []) :
    (getNextPlateList platesFileExists lines).head? = some "TEST" ∧
    "TEST" ∉ combos3 ∧
    "TEST" ∈ allProcessed (runPool env
      (initPool n (getNextPlateList platesFileExists lines)) sched) ∧
    ("TEST" ∉ tailSource platesFileExists lines →
      ∀ i j
        (hi : i < (runPool env
          (initPool n (getNextPlateList platesFileExists lines))
            sched).workers.length)
        (hj : j < (runPool env
          (initPool n (getNextPlateList platesFileExists lines))
            sched).workers.length),
        "TEST" ∈ ((runPool env
          (initPool n (getNextPlateList platesFileExists lines))
            sched).workers.get ⟨i, hi⟩).processed →
        "TEST" ∈ ((runPool env
          (initPool n (getNextPlateList platesFileExists lines))
            sched).workers.get ⟨j, hj⟩).processed →
        i = j) := by
  have hcons := runPool_conserve env sched
    (initPool n (getNextPlateList platesFileExists lines))
  rw [allProcessed_initPool, List.nil_append] at hcons
  have hsrc : (initPool n (getNextPlateList platesFileExists lines)).remaining
      = "TEST" :: tailSource platesFileExists lines := rfl
  rw [hsrc, hdone, List.append_nil] at hcons
  refine ⟨rfl, test_not_mem_combos3, ?_, ?_⟩
  · exact hcons.mem_iff.mpr (List.mem_cons_self _ _)
  · intro hnotin i j hi hj hci hcj
    have hcount : (allProcessed (runPool env
        (initPool n (getNextPlateList platesFileExists lines))
          sched)).count "TEST" = 1 := by
      rw [hcons.count_eq, List.count_cons_self,
        List.count_eq_zero.mpr hnotin]
    refine count_flatten_one
      ((runPool env (initPool n (getNextPlateList platesFileExists lines))
        sched).workers.map fun w => w.processed)
      hcount i j (by rw [List.length_map]; exact hi)
      (by rw [List.length_map]; exact hj) ?_ ?_
    · simp only [List.get_eq_getElem, List.getElem_map]
      exact hci
    · simp only [List.get_eq_getElem, List.getElem_map]
      exact hcj

/-- C10 witness: a single worker draining the generator built from a
one-line plates file processes `"TEST"`. -/
theorem test_probed_first_witness :
    "TEST" ∈ allProcessed (runPool envTaken
      (initPool 1 (getNextPlateList true ["AB"])) [0, 0]) := by
  have h := test_probed_first true ["AB"] envTaken 1 [0, 0] (by decide)
  exact h.2.2.1

/-- C5 counterexample: with `plates.txt` containing `AA` twice and the remote
answering AVAILABLE for everything, the batch summary lists `AA` twice —
`main` sorts `allAvailablePlates` but never de-duplicates it, refuting
"every AVAILABLE candidate appears in it exactly once". -/
theorem summary_dedup_cex :
    finalSummary (runPool envAvail
        (initPool 1 (getNextPlateList true ["AA", "AA"])) [0, 0, 0]) =
      ["AA", "AA", "TEST"] ∧
    (finalSummary (runPool envAvail
        (initPool 1 (getNextPlateList true ["AA", "AA"])) [0, 0, 0])).count
      "AA" = 2 ∧
    (2 : Nat) ≠ 1 := by
  refine ⟨by decide, by decide, by decide⟩

/-- C5 (amended): after any run, the batch summary is the sorted — but not
de-duplicated — list of the uppercased AVAILABLE classifications: it is
sorted under the JS comparator, it is a permutation of the list holding one
entry per pulled plate classified AVAILABLE (so a candidate classified
AVAILABLE in k pulls appears k times), and a string belongs to it iff some
pulled plate was classified AVAILABLE and uppercases to it — no other
candidate appears. -/
theorem summary_sorted_available (env : String → ProbeOutcome) (n : Nat)
    (source : List String) (sched : List Nat) :
    List.Sorted strLeProp
      (finalSummary (runPool env (initPool n source) sched)) ∧
    (finalSummary (runPool env (initPool n source) sched)).Perm
      (availFilter env (allProcessed (runPool env (initPool n source) sched))) ∧
    (∀ c, c ∈ finalSummary (runPool env (initPool n source) sched) ↔
      ∃ p, p ∈ allProcessed (runPool env (initPool n source) sched) ∧
        checkedStatus (env p) = "AVAILABLE" ∧ toUpperJS p = c) := by
  have hinv : ∀ w ∈ (initPool n source).workers,
      w.st.availablePlates = availFilter env w.processed := by
    intro w hw
    have hw2 : w = ⟨initialFinderState, []⟩ := List.eq_of_mem_replicate hw
    rw [hw2]
    rfl
  have hrun := runPool_avail env sched (initPool n source) hinv
  have haccum := availableAccum_eq env _ hrun
  have hperm : (finalSummary (runPool env (initPool n source) sched)).Perm
      (availFilter env (allProcessed (runPool env (initPool n source) sched))) := by
    show (sortJS (availableAccum (runPool env (initPool n source) sched))).Perm
      (availFilter env (allProcessed (runPool env (initPool n source) sched)))
    rw [haccum]
    exact sortJS_perm _
  refine ⟨sortJS_sorted _, hperm, ?_⟩
  intro c
  constructor
  · intro hc
    have hc2 : c ∈ availFilter env
        (allProcessed (runPool env (initPool n source) sched)) :=
      hperm.mem_iff.mp hc
    rcases List.mem_map.mp hc2 with ⟨p, hp2, rfl⟩
    rcases List.mem_filter.mp hp2 with ⟨hpmem, hpav⟩
    exact ⟨p, hpmem, by simpa using hpav, rfl⟩
  · rintro ⟨p, hpmem, hpav, rfl⟩
    refine hperm.mem_iff.mpr ?_
    exact List.mem_map.mpr
      ⟨p, List.mem_filter.mpr ⟨hpmem, by simp [hpav]⟩, rfl⟩

/-- C4 witness instance: the amended verdict mapping applied to the
AVAILABLE sentinel. -/
theorem verdict_mapping_witness :
    routerStatusOf (.response 200 (.json (some "AVAILABLE"))) =
      Status.AVAILABLE :=
  (verdict_mapping (.response 200 (.json (some "AVAILABLE"))) "AB"
    envAvail).2.1.mpr rfl

/-- C6 witness instance: the amended filter rule applied to a length-2
line. -/
theorem line_filter_amended_witness :
    ∃ t, lineYield "AB" = some t :=
  (line_filter_amended "AB").mpr (by decide)

/-- C5 witness instance: a lowercase plate classified AVAILABLE appears
uppercased in the summary. -/
theorem summary_sorted_available_witness :
    "AA" ∈ finalSummary (runPool envAvail (initPool 1 ["aa"]) [0]) :=
  ((summary_sorted_available envAvail 1 ["aa"] [0]).2.2 "AA").mpr
    ⟨"aa", by decide, by decide, by decide⟩

end DMV
